import Mathlib

set_option maxHeartbeats 1000000

/-!
Shallow embedding of the GeoJSON normalization core of the wildfires_map
repository (src/utils/DataLoader.ts and the centroid helpers of
src/components/WildfireMap.ts), together with theorems checking the
natural-language specification against it.

JSON values are modelled by the inductive type `JValue`; JavaScript objects
are insertion-ordered association lists with unique keys, numbers are exact
rationals, and fallible JavaScript code (property access on `undefined`,
out-of-bounds indexing that leads to a TypeError) is modelled with `Option`:
`none` means the source would have thrown.
-/

namespace WildfiresMap

/-- A parsed JSON value, as received by the DataLoader after `response.json()`.
Objects keep their fields as an insertion-ordered association list. -/
inductive JValue where
  | null : JValue
  | bool : Bool → JValue
  | num : ℚ → JValue
  | str : String → JValue
  | arr : List JValue → JValue
  | obj : List (String × JValue) → JValue
deriving Repr

/-- JavaScript truthiness of a JSON value: `null`, `false`, `0` and the empty
string are falsy; arrays and objects are always truthy. -/
def jsTruthy : JValue → Bool
  | .null => false
  | .bool b => b
  | .num q => if q = 0 then false else true
  | .str s => if s = "" then false else true
  | .arr _ => true
  | .obj _ => true

/-- Result of `typeof x === 'object'` on a JSON value (arrays and `null` count
as objects in JavaScript). -/
def isObjectType : JValue → Bool
  | .null => true
  | .arr _ => true
  | .obj _ => true
  | _ => false

/-- Lookup of a key in an association list (the own-property lookup of a
JavaScript object). -/
def getL {α : Type} (k : String) : List (String × α) → Option α
  | [] => none
  | (k', v) :: rest => if k' = k then some v else getL k rest

/-- Property read `v[k]`: `none` models `undefined` (also for reads on
primitives, which JavaScript answers with `undefined`). -/
def objGet (k : String) : JValue → Option JValue
  | .obj fields => getL k fields
  | _ => none

/-- Property write on an object's field list: an existing key is updated in
place (its position is kept), a new key is appended at the end — exactly the
insertion-order behaviour of a JavaScript object. -/
def objSetL (k : String) (v : JValue) : List (String × JValue) → List (String × JValue)
  | [] => [(k, v)]
  | (k', v') :: rest => if k' = k then (k', v) :: rest else (k', v') :: objSetL k v rest

/-- The `delete` operator on an object's field list. -/
def objDeleteL (k : String) : List (String × JValue) → List (String × JValue)
  | [] => []
  | (k', v) :: rest => if k' = k then objDeleteL k rest else (k', v) :: objDeleteL k rest

/-- Keys of an object's field list, in order. -/
def keysOf (m : List (String × JValue)) : List String := m.map Prod.fst

/-- The closed list of accepted GeoJSON `type` strings (DataLoader.ts,
`validTypes` inside `isValidGeoJSON`). -/
def validTypes : List String :=
  ["FeatureCollection", "Feature", "Point", "LineString", "Polygon",
   "MultiPoint", "MultiLineString", "MultiPolygon", "GeometryCollection"]

/-- The check `validTypes.includes(data.type)`: `includes` compares with
strict equality, so a non-string `type` never matches. -/
def typeIncluded : JValue → Bool
  | .str t => validTypes.contains t
  | _ => false

/-- The comparison `data.type === 'FeatureCollection'`. -/
def isFeatureCollectionType : JValue → Bool
  | .str t => t = "FeatureCollection"
  | _ => false

/-- DataLoader.isValidGeoJSON: rejects non-objects, objects with a falsy
`type`, a `type` outside `validTypes`, and FeatureCollections whose
`features` is not an array. -/
def isValidGeoJSON (data : JValue) : Bool :=
  if !(jsTruthy data && isObjectType data) then false
  else
    match objGet "type" data with
    | none => false
    | some ty =>
      if !(jsTruthy ty) then false
      else if !(typeIncluded ty) then false
      else if isFeatureCollectionType ty then
        match objGet "features" data with
        | some (.arr _) => true
        | _ => false
      else true

/-- The property-name rename table of DataLoader.standardizeProperties, in the
literal's insertion order — the order `Object.keys` iterates it in. -/
def propertyMappings : List (String × String) :=
  [("RISK_LEVEL", "risk_level"), ("riskLevel", "risk_level"),
   ("SEVERITY", "severity"), ("INTENSITY", "intensity"),
   ("TEMP", "temperature"), ("temperature_f", "temperature"),
   ("HUMIDITY", "humidity"), ("humidity_percent", "humidity"),
   ("WIND_SPEED", "wind_speed"), ("windSpeed", "wind_speed"),
   ("wind_mph", "wind_speed"), ("NAME", "name"), ("area_name", "name"),
   ("AREA_NAME", "name"), ("LAST_UPDATE", "last_update"),
   ("lastUpdate", "last_update"), ("FORECAST_TIME", "forecast_time"),
   ("forecastTime", "forecast_time")]

/-- One step of the `Object.keys(propertyMappings).forEach` loop: when the
source key is defined, its value is written under the target key and the
source key is deleted (when the two differ). -/
def applyOne (m : List (String × JValue)) (mp : String × String) : List (String × JValue) :=
  match getL mp.1 m with
  | none => m
  | some v =>
    let m' := objSetL mp.2 v m
    if mp.1 ≠ mp.2 then objDeleteL mp.1 m' else m'

/-- The whole rename loop of standardizeProperties, folding the table in its
fixed insertion order. -/
def applyMappings (m : List (String × JValue)) : List (String × JValue) :=
  propertyMappings.foldl applyOne m

/-- The risk-level value table of DataLoader.standardizeRiskLevel. -/
def riskMappings : List (String × String) :=
  [("low", "low"), ("minimal", "low"), ("green", "low"),
   ("moderate", "moderate"), ("medium", "moderate"), ("yellow", "moderate"),
   ("high", "high"), ("orange", "high"),
   ("very high", "very_high"), ("very_high", "very_high"), ("veryhigh", "very_high"),
   ("extreme", "extreme"), ("critical", "extreme"), ("red", "extreme")]

/-- The `toLowerCase()` string method, applied per character. -/
def jsToLower (s : String) : String := ⟨s.data.map Char.toLower⟩

/-- The `trim()` string method: strip leading and trailing whitespace. -/
def jsTrim (s : String) : String :=
  ⟨((s.data.dropWhile Char.isWhitespace).reverse.dropWhile Char.isWhitespace).reverse⟩

/-- DataLoader.standardizeRiskLevel: non-strings pass through unchanged;
strings are lower-cased and trimmed, then looked up in `riskMappings`
(`riskMappings[v] || v` returns the lower-cased trimmed value when the table
has no entry for it). -/
def standardizeRiskLevel (v : JValue) : JValue :=
  match v with
  | .str s =>
    let lowercaseValue := jsTrim (jsToLower s)
    match getL lowercaseValue riskMappings with
    | some r => .str r
    | none => .str lowercaseValue
  | _ => v

/-- One of the two value-standardization statements of
DataLoader.standardizeProperties: when the value under `key` is truthy it is
replaced by its standardized form. -/
def riskValueStep (key : String) (st : List (String × JValue)) : List (String × JValue) :=
  match getL key st with
  | some v => if jsTruthy v then objSetL key (standardizeRiskLevel v) st else st
  | none => st

/-- DataLoader.standardizeProperties: copy, apply the rename table, then
standardize truthy `risk_level` and `severity` values. -/
def standardizeProperties (properties : List (String × JValue)) : List (String × JValue) :=
  riskValueStep "severity" (riskValueStep "risk_level" (applyMappings properties))

/-- Numeric entry `i` of a coordinate pair `p[i]`; `none` when the access does
not yield a number. -/
def coordNum (i : Nat) (p : JValue) : Option ℚ :=
  match p with
  | .arr cs =>
    match cs.get? i with
    | some (.num q) => some q
    | _ => none
  | _ => none

/-- The signed shoelace accumulator of DataLoader.calculatePolygonArea:
the loop body `area += x_i * y_(i+1) - x_(i+1) * y_i` over adjacent pairs. -/
def shoelaceSum : List JValue → Option ℚ
  | p :: q :: rest => do
    let x1 ← coordNum 0 p
    let y1 ← coordNum 1 p
    let x2 ← coordNum 0 q
    let y2 ← coordNum 1 q
    let s ← shoelaceSum (q :: rest)
    pure (x1 * y2 - x2 * y1 + s)
  | _ => some 0

/-- DataLoader.calculatePolygonArea on a JSON ring: fewer than 3 points gives
0; otherwise half the absolute shoelace sum. A non-array ring models passing
`undefined`, on which `coordinates.length` throws. -/
def calculatePolygonArea (ring : JValue) : Option ℚ :=
  match ring with
  | .arr pts =>
    if pts.length < 3 then some 0
    else (shoelaceSum pts).map (fun a => |a| / 2)
  | _ => none

/-- The `reduce` of DataLoader.calculateApproximateArea over a MultiPolygon's
polygons: each polygon's first ring is indexed (`polygon[0]`), which throws
when the polygon has no rings. -/
def sumPolygons (acc : ℚ) : List JValue → Option ℚ
  | [] => some acc
  | poly :: rest =>
    match poly with
    | .arr (r0 :: _) =>
      match calculatePolygonArea r0 with
      | some a => sumPolygons (acc + a) rest
      | none => none
    | _ => none

/-- DataLoader.calculateApproximateArea: the first ring of a Polygon, or the
sum over a MultiPolygon's polygons of each first ring's area; any other type
returns 0. Indexing `coordinates[0]` of an empty or absent coordinates array
throws, modelled by `none`. -/
def calculateApproximateArea (geometry : JValue) : Option ℚ :=
  match objGet "type" geometry with
  | some (.str "Polygon") =>
    match objGet "coordinates" geometry with
    | some (.arr (r0 :: _)) => calculatePolygonArea r0
    | _ => none
  | some (.str "MultiPolygon") =>
    match objGet "coordinates" geometry with
    | some (.arr polys) => sumPolygons 0 polys
    | _ => none
  | _ => some 0

/-- The statement `if (!feature.properties) feature.properties = {}` of
DataLoader.processFeature: an absent or falsy `properties` becomes the empty
object; a truthy non-object `properties` makes the following property
assignment throw (strict mode), modelled by `none`. -/
def materializeProps (fields : List (String × JValue)) : Option (List (String × JValue)) :=
  match getL "properties" fields with
  | some (.obj ps) => some ps
  | some v => if jsTruthy v then none else some []
  | none => some []

/-- The statement `if (!feature.properties.processed_at) ... = toISOString()`
of DataLoader.processFeature: the timestamp is written whenever the current
value is falsy (absent, `null`, `false`, `0` or the empty string). -/
def stampProcessedAt (now : String) (ps : List (String × JValue)) : List (String × JValue) :=
  match getL "processed_at" ps with
  | some v => if jsTruthy v then ps else objSetL "processed_at" (.str now) ps
  | none => objSetL "processed_at" (.str now) ps

/-- The conditional `calculated_area` write of DataLoader.processFeature: for
a truthy geometry whose `type` is Polygon or MultiPolygon, the approximate
area is computed (possibly throwing) and written. -/
def areaStep (fields ps2 : List (String × JValue)) : Option (List (String × JValue)) :=
  match getL "geometry" fields with
  | some g =>
    if jsTruthy g then
      match objGet "type" g with
      | some (.str t) =>
        if t = "Polygon" || t = "MultiPolygon" then
          (calculateApproximateArea g).map (fun a => objSetL "calculated_area" (.num a) ps2)
        else some ps2
      | _ => some ps2
    else some ps2
  | none => some ps2

/-- DataLoader.processFeature: materialize `properties` when falsy, stamp
`processed_at` when falsy, standardize the properties, and for Polygon or
MultiPolygon geometries write `calculated_area`. A feature that is not an
object makes the source throw on property access or assignment, modelled by
`none`. -/
def processFeature (now : String) (feature : JValue) : Option JValue :=
  match feature with
  | .obj fields =>
    match materializeProps fields with
    | none => none
    | some ps =>
      match areaStep fields (standardizeProperties (stampProcessedAt now ps)) with
      | none => none
      | some psF => some (.obj (objSetL "properties" (.obj psF) fields))
  | _ => none

/-- DataLoader.processGeoJSON (the deep copy is the identity on values): a
FeatureCollection has its features processed in place, a Feature is processed
and wrapped in a single-element FeatureCollection, and anything else (a bare
geometry) is wrapped as the geometry of a fresh single-feature collection. -/
def processGeoJSON (now : String) (data : JValue) : Option JValue :=
  match objGet "type" data with
  | some (.str "FeatureCollection") =>
    match data, objGet "features" data with
    | .obj fields, some (.arr feats) =>
      (feats.mapM (processFeature now)).map
        (fun feats' => JValue.obj (objSetL "features" (.arr feats') fields))
    | _, _ => none
  | some (.str "Feature") =>
    (processFeature now data).map
      (fun f => JValue.obj [("type", .str "FeatureCollection"), ("features", .arr [f])])
  | _ =>
    some (.obj [("type", .str "FeatureCollection"),
                ("features", .arr [.obj [("type", .str "Feature"),
                                         ("geometry", data),
                                         ("properties", .obj [])]])])

/-- The loop of WildfireMap.getPolygonCentroid: accumulates the signed
shoelace sum together with the cross-weighted coordinate sums over adjacent
vertex pairs; returns `(area2, x, y)`. -/
def centroidScan : List (ℚ × ℚ) → ℚ × ℚ × ℚ
  | p :: q :: rest =>
    let cross := p.1 * q.2 - q.1 * p.2
    let s := centroidScan (q :: rest)
    (s.1 + cross, (s.2.1 + (p.1 + q.1) * cross, s.2.2 + (p.2 + q.2) * cross))
  | _ => (0, (0, 0))

/-- WildfireMap.getPolygonCentroid on a ring of rational coordinate pairs:
when the signed area is zero the first vertex is returned (on an empty ring
the source reads `coordinates[0][0]` of `undefined` and throws, hence
`none`), otherwise the shoelace centroid. -/
def getPolygonCentroid (coordinates : List (ℚ × ℚ)) : Option (ℚ × ℚ) :=
  match coordinates with
  | [] => none
  | c0 :: _ =>
    let s := centroidScan coordinates
    let area := s.1 / 2
    if area = 0 then some c0 else some (s.2.1 / (6 * area), s.2.2 / (6 * area))

/-- The signed shoelace accumulator over adjacent typed vertex pairs. -/
def shoelaceSumQ : List (ℚ × ℚ) → ℚ
  | p :: q :: rest => p.1 * q.2 - q.1 * p.2 + shoelaceSumQ (q :: rest)
  | _ => 0

/-- DataLoader.calculatePolygonArea restated on a typed ring of rational
coordinate pairs (the same shoelace computation as the JSON-level
`calculatePolygonArea`, which `calculatePolygonArea_encRing` below relates to
this one). -/
def calculatePolygonAreaQ (coordinates : List (ℚ × ℚ)) : ℚ :=
  if coordinates.length < 3 then 0 else |shoelaceSumQ coordinates| / 2

/-- Decode of one coordinate pair from JSON. -/
def decodePoint (p : JValue) : Option (ℚ × ℚ) := do
  let x ← coordNum 0 p
  let y ← coordNum 1 p
  pure (x, y)

/-- Decode of a JSON ring into typed coordinate pairs. -/
def decodeRing (r : JValue) : Option (List (ℚ × ℚ)) :=
  match r with
  | .arr pts => pts.mapM decodePoint
  | _ => none

/-- Centroid of a JSON ring, as WildfireMap feeds a ring to
getPolygonCentroid: the outer `none` models a thrown TypeError, the inner
option is the returned value. -/
def centroidOfRing (r : JValue) : Option (Option JValue) :=
  match decodeRing r with
  | some pts => (getPolygonCentroid pts).map (fun c => some (.arr [.num c.1, .num c.2]))
  | none => none

/-- WildfireMap.getFeatureCoordinates: `null` (inner `none`) for a falsy
geometry or an unsupported type, the raw coordinates for a Point, and the
centroid of the first ring for Polygon / of the first polygon's first ring
for MultiPolygon; indexing an absent ring throws (outer `none`). -/
def getFeatureCoordinates (feature : JValue) : Option (Option JValue) :=
  match objGet "geometry" feature with
  | none => some none
  | some g =>
    if !(jsTruthy g) then some none
    else
      match objGet "type" g with
      | some (.str "Point") => some (objGet "coordinates" g)
      | some (.str "Polygon") =>
        match objGet "coordinates" g with
        | some (.arr (r0 :: _)) => centroidOfRing r0
        | _ => none
      | some (.str "MultiPolygon") =>
        match objGet "coordinates" g with
        | some (.arr (.arr (r0 :: _) :: _)) => centroidOfRing r0
        | _ => none
      | _ => some none

/-- Encoding of a typed coordinate pair as a JSON `[x, y]` array. -/
def encPoint (p : ℚ × ℚ) : JValue := .arr [.num p.1, .num p.2]

/-- Encoding of a typed ring as a JSON array of pairs. -/
def encRing (r : List (ℚ × ℚ)) : JValue := .arr (r.map encPoint)

/-- Encoding of a typed polygon (a list of rings) as a JSON array. -/
def encPolygon (rs : List (List (ℚ × ℚ))) : JValue := .arr (rs.map encRing)

/-- Encoding of a typed MultiPolygon geometry object. -/
def encMultiPolygonGeom (ps : List (List (List (ℚ × ℚ)))) : JValue :=
  .obj [("type", .str "MultiPolygon"), ("coordinates", .arr (ps.map encPolygon))]

/-- A Feature object with the given geometry and empty properties. -/
def mkFeature (geometry : JValue) : JValue :=
  .obj [("type", .str "Feature"), ("geometry", geometry), ("properties", .obj [])]

/-- Restatement of the spec's Validate rejection conditions, in the spec's own
terms, for comparison with `isValidGeoJSON`: the value is not an object, has
no `type` field, has a `type` outside the closed set, or is a
FeatureCollection without a `features` sequence. -/
def validateRejectsSpec : JValue → Prop
  | .obj fields =>
    getL "type" fields = none ∨
    (∃ ty, getL "type" fields = some ty ∧ ∀ t, t ∈ validTypes → ty ≠ .str t) ∨
    (getL "type" fields = some (.str "FeatureCollection") ∧
      ∀ xs, getL "features" fields ≠ some (.arr xs))
  | _ => True

/-! Helper lemmas about the object operations. -/

theorem lookup_objSetL_self (k : String) (v : JValue) (m : List (String × JValue)) :
    getL k (objSetL k v m) = some v := by
  induction m with
  | nil => simp [objSetL, getL]
  | cons kv rest ih =>
    obtain ⟨k', v'⟩ := kv
    by_cases h : k' = k <;> simp [objSetL, h, getL, ih]

theorem lookup_objSetL_ne {k' k : String} (h : k' ≠ k) (v : JValue)
    (m : List (String × JValue)) :
    getL k' (objSetL k v m) = getL k' m := by
  induction m with
  | nil => simp [objSetL, getL, Ne.symm h]
  | cons kv rest ih =>
    obtain ⟨k₀, v₀⟩ := kv
    by_cases h0 : k₀ = k
    · subst h0
      simp [objSetL, getL, Ne.symm h]
    · by_cases h1 : k₀ = k'
      · subst h1
        simp [objSetL, getL, h0]
      · simp [objSetL, h0, getL, h1, ih]

theorem lookup_objDeleteL_self (k : String) (m : List (String × JValue)) :
    getL k (objDeleteL k m) = none := by
  induction m with
  | nil => simp [objDeleteL, getL]
  | cons kv rest ih =>
    obtain ⟨k₀, v₀⟩ := kv
    by_cases h0 : k₀ = k <;> simp [objDeleteL, h0, getL, ih]

theorem lookup_objDeleteL_ne {k' k : String} (h : k' ≠ k)
    (m : List (String × JValue)) :
    getL k' (objDeleteL k m) = getL k' m := by
  induction m with
  | nil => simp [objDeleteL]
  | cons kv rest ih =>
    obtain ⟨k₀, v₀⟩ := kv
    by_cases h0 : k₀ = k
    · subst h0
      simp [objDeleteL, getL, Ne.symm h, ih]
    · by_cases h1 : k₀ = k'
      · subst h1
        simp [objDeleteL, getL, h0]
      · simp [objDeleteL, h0, getL, h1, ih]

theorem lookup_applyOne_ne {k : String} {mp : String × String}
    (h1 : k ≠ mp.1) (h2 : k ≠ mp.2) (m : List (String × JValue)) :
    getL k (applyOne m mp) = getL k m := by
  unfold applyOne
  cases hl : getL mp.1 m with
  | none => rfl
  | some v =>
    by_cases hmp : mp.1 = mp.2 <;>
      simp [hmp, lookup_objDeleteL_ne h1, lookup_objSetL_ne h2]

theorem lookup_foldl_applyOne_ne {k : String} :
    ∀ (maps : List (String × String)) (m : List (String × JValue)),
      (∀ mp ∈ maps, k ≠ mp.1 ∧ k ≠ mp.2) →
      getL k (maps.foldl applyOne m) = getL k m
  | [], _, _ => rfl
  | mp :: rest, m, h => by
    have hmp := h mp (List.mem_cons_self mp rest)
    rw [List.foldl_cons,
      lookup_foldl_applyOne_ne rest _ (fun x hx => h x (List.mem_cons_of_mem mp hx)),
      lookup_applyOne_ne hmp.1 hmp.2]

theorem lookup_riskValueStep_ne {k key : String} (h : k ≠ key)
    (st : List (String × JValue)) :
    getL k (riskValueStep key st) = getL k st := by
  cases hs : getL key st with
  | none => simp [riskValueStep, hs]
  | some w =>
    by_cases hw : jsTruthy w <;> simp [riskValueStep, hs, hw, lookup_objSetL_ne h]

theorem lookup_standardizeProperties_ne {k : String}
    (h1 : ∀ mp ∈ propertyMappings, k ≠ mp.1 ∧ k ≠ mp.2)
    (h2 : k ≠ "risk_level") (h3 : k ≠ "severity") (m : List (String × JValue)) :
    getL k (standardizeProperties m) = getL k m := by
  rw [standardizeProperties, lookup_riskValueStep_ne h3, lookup_riskValueStep_ne h2]
  exact lookup_foldl_applyOne_ne propertyMappings m h1

theorem mem_keys_objSetL {k' k : String} {v : JValue} {m : List (String × JValue)} :
    k' ∈ keysOf (objSetL k v m) ↔ k' = k ∨ k' ∈ keysOf m := by
  induction m with
  | nil => simp [objSetL, keysOf]
  | cons kv rest ih =>
    obtain ⟨k₀, v₀⟩ := kv
    by_cases h0 : k₀ = k
    · subst h0
      simp [objSetL, keysOf]
    · simp [objSetL, h0, keysOf] at ih ⊢
      tauto

theorem nodup_keys_objSetL (k : String) (v : JValue) {m : List (String × JValue)}
    (h : (keysOf m).Nodup) : (keysOf (objSetL k v m)).Nodup := by
  induction m with
  | nil => simp [objSetL, keysOf]
  | cons kv rest ih =>
    obtain ⟨k₀, v₀⟩ := kv
    rw [keysOf, List.map_cons, List.nodup_cons] at h
    by_cases h0 : k₀ = k
    · subst h0
      simpa [objSetL, keysOf, List.nodup_cons] using h
    · rw [objSetL]
      simp only [h0, if_false, keysOf, List.map_cons, List.nodup_cons]
      refine ⟨fun hmem => ?_, ih h.2⟩
      rcases mem_keys_objSetL.mp hmem with h1 | h1
      · exact h0 h1
      · exact h.1 h1

theorem mem_keys_objDeleteL {k' k : String} {m : List (String × JValue)}
    (h : k' ∈ keysOf (objDeleteL k m)) : k' ∈ keysOf m := by
  induction m with
  | nil => simpa [objDeleteL] using h
  | cons kv rest ih =>
    obtain ⟨k₀, v₀⟩ := kv
    by_cases h0 : k₀ = k
    · simp only [objDeleteL, h0, if_true] at h
      simp only [keysOf, List.map_cons, List.mem_cons]
      exact Or.inr (ih h)
    · simp only [objDeleteL, h0, if_false, keysOf, List.map_cons, List.mem_cons] at h ⊢
      rcases h with h | h
      · exact Or.inl h
      · exact Or.inr (ih h)

theorem nodup_keys_objDeleteL (k : String) {m : List (String × JValue)}
    (h : (keysOf m).Nodup) : (keysOf (objDeleteL k m)).Nodup := by
  induction m with
  | nil => simp [objDeleteL, keysOf]
  | cons kv rest ih =>
    obtain ⟨k₀, v₀⟩ := kv
    rw [keysOf, List.map_cons, List.nodup_cons] at h
    by_cases h0 : k₀ = k
    · simpa [objDeleteL, h0] using ih h.2
    · rw [objDeleteL]
      simp only [h0, if_false, keysOf, List.map_cons, List.nodup_cons]
      exact ⟨fun hmem => h.1 (mem_keys_objDeleteL hmem), ih h.2⟩

theorem nodup_keys_applyOne {m : List (String × JValue)} (mp : String × String)
    (h : (keysOf m).Nodup) : (keysOf (applyOne m mp)).Nodup := by
  unfold applyOne
  cases getL mp.1 m with
  | none => exact h
  | some v =>
    by_cases hmp : mp.1 ≠ mp.2 <;>
      simp [hmp, nodup_keys_objDeleteL, nodup_keys_objSetL, h]

theorem nodup_keys_foldl_applyOne :
    ∀ (maps : List (String × String)) (m : List (String × JValue)),
      (keysOf m).Nodup → (keysOf (maps.foldl applyOne m)).Nodup
  | [], _, h => h
  | mp :: rest, m, h => by
    rw [List.foldl_cons]
    exact nodup_keys_foldl_applyOne rest (applyOne m mp) (nodup_keys_applyOne mp h)

theorem count_keys_eq_one {m : List (String × JValue)} {k : String} {v : JValue}
    (hnd : (keysOf m).Nodup) (h : getL k m = some v) :
    (keysOf m).count k = 1 := by
  induction m with
  | nil => simp [getL] at h
  | cons kv rest ih =>
    obtain ⟨k₀, v₀⟩ := kv
    rw [keysOf, List.map_cons, List.nodup_cons] at hnd
    by_cases h0 : k₀ = k
    · subst h0
      rw [keysOf, List.map_cons, List.count_cons_self]
      rw [List.count_eq_zero.mpr hnd.1]
    · rw [getL, if_neg h0] at h
      rw [keysOf, List.map_cons, List.count_cons_of_ne (fun hk => h0 hk.symm)]
      exact ih hnd.2 h

theorem objGet_obj_objSetL_ne {k k' : String} (h : k ≠ k') (v : JValue)
    (m : List (String × JValue)) :
    objGet k (.obj (objSetL k' v m)) = getL k m :=
  lookup_objSetL_ne h v m

theorem getL_areaStep_ne {fields ps2 psF : List (String × JValue)}
    (h : areaStep fields ps2 = some psF) {k : String} (hk : k ≠ "calculated_area") :
    getL k psF = getL k ps2 := by
  unfold areaStep at h
  repeat split at h
  all_goals
    first
    | (cases h; rfl)
    | (rcases Option.map_eq_some'.mp h with ⟨a, _, rfl⟩
       exact lookup_objSetL_ne hk (.num a) ps2)

/-! Claim theorems. -/

/-- C8: the square ring [[0,0],[2,0],[2,2],[0,2],[0,0]] has shoelace centroid
(1,1) and shoelace area 4. -/
theorem square_ring_centroid_and_area :
    getPolygonCentroid [((0 : ℚ), (0 : ℚ)), (2, 0), (2, 2), (0, 2), (0, 0)] = some (1, 1) ∧
    calculatePolygonAreaQ [((0 : ℚ), (0 : ℚ)), (2, 0), (2, 2), (0, 2), (0, 0)] = 4 := by
  constructor
  · norm_num [getPolygonCentroid, centroidScan]
  · norm_num [calculatePolygonAreaQ, shoelaceSumQ]

/-- C2: a ring of exactly 2 points (closed, as the data model requires: its
first and last points coincide) yields area 0, and the centroid computation
returns its first point; the area is 0 for any 2-point ring. -/
theorem twoPointRing_area_zero_centroid_first
    (r : List (ℚ × ℚ)) (hlen : r.length = 2) :
    calculatePolygonAreaQ r = 0 ∧
    (r.head? = r.getLast? → getPolygonCentroid r = r.head?) := by
  match r, hlen with
  | [p, q], _ =>
    refine ⟨by simp [calculatePolygonAreaQ], fun hclosed => ?_⟩
    have hpq : p = q := by simpa using hclosed
    subst hpq
    simp [getPolygonCentroid, centroidScan]

/-- C2 witness: the closed 2-point ring [(3,4),(3,4)] has area 0 and
representative coordinate (3,4), its first point. -/
theorem twoPointRing_area_zero_centroid_first_witness :
    calculatePolygonAreaQ [((3 : ℚ), (4 : ℚ)), (3, 4)] = 0 ∧
    getPolygonCentroid [((3 : ℚ), (4 : ℚ)), (3, 4)] = some (3, 4) := by
  have h := twoPointRing_area_zero_centroid_first [((3 : ℚ), (4 : ℚ)), (3, 4)] rfl
  exact ⟨h.1, by simpa using h.2 rfl⟩

/-- C3: there are inputs accepted by isValidGeoJSON on which processGeoJSON
does not return a result: a Feature whose Polygon geometry has an empty
coordinates array is validated, yet the area computation indexes the absent
first ring and throws, as does the centroid computation of
getFeatureCoordinates; likewise a MultiPolygon whose first polygon has no
rings (for the area) and a MultiPolygon with an empty coordinates array (for
the centroid). -/
theorem exists_validated_input_where_normalize_throws :
    isValidGeoJSON
      (.obj [("type", .str "Feature"),
             ("geometry", .obj [("type", .str "Polygon"), ("coordinates", .arr [])]),
             ("properties", .obj [])]) = true ∧
    processGeoJSON "2024-01-01T00:00:00.000Z"
      (.obj [("type", .str "Feature"),
             ("geometry", .obj [("type", .str "Polygon"), ("coordinates", .arr [])]),
             ("properties", .obj [])]) = none ∧
    getFeatureCoordinates
      (.obj [("type", .str "Feature"),
             ("geometry", .obj [("type", .str "Polygon"), ("coordinates", .arr [])]),
             ("properties", .obj [])]) = none ∧
    processGeoJSON "2024-01-01T00:00:00.000Z"
      (.obj [("type", .str "Feature"),
             ("geometry", .obj [("type", .str "MultiPolygon"),
                                ("coordinates", .arr [.arr []])]),
             ("properties", .obj [])]) = none ∧
    getFeatureCoordinates
      (.obj [("type", .str "Feature"),
             ("geometry", .obj [("type", .str "MultiPolygon"), ("coordinates", .arr [])]),
             ("properties", .obj [])]) = none :=
  ⟨rfl, rfl, rfl, rfl, rfl⟩

/-- C1 counterexample: the claim "for every input accepted by Validate,
Normalize returns a document" fails: this validated Feature (Polygon geometry
without a coordinates field) makes processGeoJSON throw instead of returning
a FeatureCollection. -/
theorem processGeoJSON_none_on_validated_feature :
    isValidGeoJSON
      (.obj [("type", .str "Feature"),
             ("geometry", .obj [("type", .str "Polygon")]),
             ("properties", .obj [])]) = true ∧
    processGeoJSON "2023-03-03T03:03:03.000Z"
      (.obj [("type", .str "Feature"),
             ("geometry", .obj [("type", .str "Polygon")]),
             ("properties", .obj [])]) = none :=
  ⟨rfl, rfl⟩

/-- C1 (amended): for every input accepted by isValidGeoJSON on which
processGeoJSON returns a result, that result has type FeatureCollection; and
when the input was not itself a FeatureCollection (a bare Feature or bare
geometry), the result is a single-element collection. -/
theorem processGeoJSON_result_is_featureCollection
    (now : String) (d r : JValue)
    (hv : isValidGeoJSON d = true)
    (hp : processGeoJSON now d = some r) :
    objGet "type" r = some (.str "FeatureCollection") ∧
    (objGet "type" d ≠ some (.str "FeatureCollection") →
      ∃ f, objGet "features" r = some (.arr [f])) := by
  unfold processGeoJSON at hp
  split at hp
  · rename_i hty
    split at hp
    · rcases Option.map_eq_some'.mp hp with ⟨feats', hmapM, rfl⟩
      refine ⟨?_, fun hne => absurd hty hne⟩
      rw [objGet_obj_objSetL_ne (by decide)]
      exact hty
    · exact Option.noConfusion hp
  · rcases Option.map_eq_some'.mp hp with ⟨f, hf, rfl⟩
    exact ⟨rfl, fun _ => ⟨f, rfl⟩⟩
  · cases hp
    exact ⟨rfl, fun _ => ⟨_, rfl⟩⟩

/-- C1 witness: a validated bare Feature is normalized into a one-feature
FeatureCollection. -/
theorem processGeoJSON_result_is_featureCollection_witness :
    isValidGeoJSON (.obj [("type", .str "Feature"), ("properties", .obj [])]) = true ∧
    processGeoJSON "T0" (.obj [("type", .str "Feature"), ("properties", .obj [])]) =
      some (.obj [("type", .str "FeatureCollection"),
                  ("features", .arr [.obj [("type", .str "Feature"),
                                           ("properties", .obj [("processed_at", .str "T0")])]])]) ∧
    (objGet "type"
        (.obj [("type", .str "FeatureCollection"),
               ("features", .arr [.obj [("type", .str "Feature"),
                                        ("properties", .obj [("processed_at", .str "T0")])]])]) =
      some (.str "FeatureCollection") ∧
      (objGet "type" (.obj [("type", .str "Feature"), ("properties", .obj [])]) ≠
          some (.str "FeatureCollection") →
        ∃ f, objGet "features"
            (.obj [("type", .str "FeatureCollection"),
                   ("features", .arr [.obj [("type", .str "Feature"),
                                            ("properties", .obj [("processed_at", .str "T0")])]])]) =
          some (.arr [f]))) :=
  ⟨rfl, rfl, processGeoJSON_result_is_featureCollection "T0" _ _ rfl rfl⟩

/-- C4 counterexample: the claim "properties that already contain a
processed_at value keep it" fails for a present-but-falsy value: an existing
empty-string processed_at is overwritten with the current timestamp. -/
theorem processFeature_overwrites_falsy_processed_at :
    processFeature "2024-05-06T07:08:09.000Z"
      (.obj [("properties", .obj [("processed_at", .str "")])]) =
      some (.obj [("properties", .obj [("processed_at", .str "2024-05-06T07:08:09.000Z")])]) ∧
    JValue.str "2024-05-06T07:08:09.000Z" ≠ JValue.str "" :=
  ⟨rfl, fun h => absurd (JValue.str.inj h) (by decide)⟩

/-- C4 (amended): for every feature whose properties contain a truthy
processed_at value — in particular the non-empty timestamp string written by
a first normalization pass — processing the feature again preserves that
value unchanged, so processFeature composed with processFeature keeps the
first pass's timestamp. -/
theorem processFeature_preserves_truthy_processed_at
    (now : String) (fields props : List (String × JValue)) (v r : JValue)
    (hprops : getL "properties" fields = some (.obj props))
    (hv : getL "processed_at" props = some v)
    (htruthy : jsTruthy v = true)
    (hp : processFeature now (.obj fields) = some r) :
    (objGet "properties" r).bind (objGet "processed_at") = some v := by
  unfold processFeature at hp
  dsimp only at hp
  unfold materializeProps at hp
  rw [hprops] at hp
  dsimp only at hp
  have hstamp : stampProcessedAt now props = props := by
    unfold stampProcessedAt
    rw [hv]
    simp [htruthy]
  rw [hstamp] at hp
  split at hp
  · exact Option.noConfusion hp
  · rename_i psF heq
    cases hp
    have h1 : getL "processed_at" psF = some v := by
      rw [getL_areaStep_ne heq (by decide),
        lookup_standardizeProperties_ne (by decide) (by decide) (by decide), hv]
    simp [objGet, lookup_objSetL_self, h1]

/-- C4 witness: a feature stamped at time A is unchanged when processed again
at time B; its processed_at stays A. -/
theorem processFeature_preserves_truthy_processed_at_witness :
    getL "properties" [("properties", JValue.obj [("processed_at", JValue.str "A")])] =
      some (.obj [("processed_at", JValue.str "A")]) ∧
    getL "processed_at" [("processed_at", JValue.str "A")] = some (.str "A") ∧
    jsTruthy (.str "A") = true ∧
    processFeature "B" (.obj [("properties", .obj [("processed_at", .str "A")])]) =
      some (.obj [("properties", .obj [("processed_at", .str "A")])]) ∧
    (objGet "properties"
        (JValue.obj [("properties", JValue.obj [("processed_at", JValue.str "A")])])).bind
      (objGet "processed_at") = some (.str "A") :=
  ⟨rfl, rfl, rfl, rfl,
    processFeature_preserves_truthy_processed_at "B"
      [("properties", JValue.obj [("processed_at", JValue.str "A")])]
      [("processed_at", JValue.str "A")] (JValue.str "A")
      (.obj [("properties", .obj [("processed_at", .str "A")])]) rfl rfl rfl rfl⟩

theorem applyOne_some {m : List (String × JValue)} {k t : String} {v : JValue}
    (h : getL k m = some v) (hne : k ≠ t) :
    applyOne m (k, t) = objDeleteL k (objSetL t v m) := by
  unfold applyOne
  dsimp only
  rw [h]
  dsimp only
  rw [if_pos hne]

/-- C5: the rename table is applied in one fixed insertion order; for a
properties map containing both RISK_LEVEL and riskLevel (two source keys of
the target key risk_level), the later-applied riskLevel mapping wins: the
output holds exactly one risk_level entry, carrying riskLevel's value, and
both source keys (hence the earlier RISK_LEVEL value) are gone. -/
theorem applyMappings_later_source_key_wins
    (props : List (String × JValue)) (v1 v2 : JValue)
    (hnd : (keysOf props).Nodup)
    (h1 : getL "RISK_LEVEL" props = some v1)
    (h2 : getL "riskLevel" props = some v2) :
    getL "risk_level" (applyMappings props) = some v2 ∧
    getL "RISK_LEVEL" (applyMappings props) = none ∧
    getL "riskLevel" (applyMappings props) = none ∧
    (keysOf (applyMappings props)).count "risk_level" = 1 := by
  have hm1 := applyOne_some (t := "risk_level") h1 (by decide)
  have h2' : getL "riskLevel" (applyOne props ("RISK_LEVEL", "risk_level")) = some v2 := by
    rw [hm1, lookup_objDeleteL_ne (by decide), lookup_objSetL_ne (by decide), h2]
  have hm2 := applyOne_some (t := "risk_level") h2' (by decide)
  have hexp : applyMappings props =
      (propertyMappings.drop 2).foldl applyOne
        (applyOne (applyOne props ("RISK_LEVEL", "risk_level"))
          ("riskLevel", "risk_level")) := by
    rw [applyMappings,
      show propertyMappings = ("RISK_LEVEL", "risk_level") :: ("riskLevel", "risk_level") ::
        propertyMappings.drop 2 from rfl,
      List.foldl_cons, List.foldl_cons]
    rfl
  have hfold : ∀ k : String, (∀ mp ∈ propertyMappings.drop 2, k ≠ mp.1 ∧ k ≠ mp.2) →
      getL k (applyMappings props) =
        getL k (applyOne (applyOne props ("RISK_LEVEL", "risk_level"))
          ("riskLevel", "risk_level")) := by
    intro k hk
    rw [hexp]
    exact lookup_foldl_applyOne_ne (propertyMappings.drop 2)
      (applyOne (applyOne props ("RISK_LEVEL", "risk_level")) ("riskLevel", "risk_level")) hk
  have hlk : getL "risk_level" (applyMappings props) = some v2 := by
    rw [hfold "risk_level" (by decide), hm2, lookup_objDeleteL_ne (by decide),
      lookup_objSetL_self]
  refine ⟨hlk, ?_, ?_, ?_⟩
  · rw [hfold "RISK_LEVEL" (by decide), hm2, lookup_objDeleteL_ne (by decide),
      lookup_objSetL_ne (by decide), hm1, lookup_objDeleteL_self]
  · rw [hfold "riskLevel" (by decide), hm2, lookup_objDeleteL_self]
  · exact count_keys_eq_one (nodup_keys_foldl_applyOne propertyMappings props hnd) hlk

/-- C5 witness: with RISK_LEVEL mapped to "RED" and riskLevel mapped to
"low", the rename loop keeps the later riskLevel value "low" as the single
risk_level entry and drops both source keys. -/
theorem applyMappings_later_source_key_wins_witness :
    (keysOf [("RISK_LEVEL", JValue.str "RED"), ("riskLevel", JValue.str "low")]).Nodup ∧
    (getL "risk_level"
        (applyMappings [("RISK_LEVEL", JValue.str "RED"), ("riskLevel", JValue.str "low")]) =
        some (.str "low") ∧
      getL "RISK_LEVEL"
        (applyMappings [("RISK_LEVEL", JValue.str "RED"), ("riskLevel", JValue.str "low")]) =
        none ∧
      getL "riskLevel"
        (applyMappings [("RISK_LEVEL", JValue.str "RED"), ("riskLevel", JValue.str "low")]) =
        none ∧
      (keysOf (applyMappings
        [("RISK_LEVEL", JValue.str "RED"), ("riskLevel", JValue.str "low")])).count
        "risk_level" = 1) :=
  ⟨by decide,
    applyMappings_later_source_key_wins
      [("RISK_LEVEL", JValue.str "RED"), ("riskLevel", JValue.str "low")]
      (JValue.str "RED") (JValue.str "low") (by decide) rfl rfl⟩

/-- C6: standardizing the properties map with exactly RISK_LEVEL mapped to
"RED" produces exactly risk_level mapped to "extreme"; in general textual
risk values are lower-cased, trimmed and mapped through riskMappings,
unmatched textual values pass through lower-cased and trimmed, and
non-textual values pass through completely unchanged. -/
theorem standardizeProperties_risk_level_red :
    standardizeProperties [("RISK_LEVEL", .str "RED")] = [("risk_level", .str "extreme")] ∧
    (∀ (s r : String), getL (jsTrim (jsToLower s)) riskMappings = some r →
      standardizeRiskLevel (.str s) = .str r) ∧
    (∀ s : String, getL (jsTrim (jsToLower s)) riskMappings = none →
      standardizeRiskLevel (.str s) = .str (jsTrim (jsToLower s))) ∧
    (∀ v : JValue, (∀ s, v ≠ .str s) → standardizeRiskLevel v = v) := by
  refine ⟨rfl, fun s r h => ?_, fun s h => ?_, fun v hv => ?_⟩
  · simp [standardizeRiskLevel, h]
  · simp [standardizeRiskLevel, h]
  · cases v
    case str s => exact absurd rfl (hv s)
    all_goals rfl

/-- C6 witness: "Orange " (with stray case and whitespace) standardizes to
"high" through the table, and a numeric value passes through untouched. -/
theorem standardizeProperties_risk_level_red_witness :
    getL (jsTrim (jsToLower "Orange ")) riskMappings = some "high" ∧
    standardizeRiskLevel (.str "Orange ") = .str "high" ∧
    standardizeRiskLevel (.num 3) = .num 3 :=
  ⟨rfl, standardizeProperties_risk_level_red.2.1 "Orange " "high" rfl,
    standardizeProperties_risk_level_red.2.2.2 (.num 3) (fun _ h => JValue.noConfusion h)⟩

theorem shoelaceSum_encPoint (r : List (ℚ × ℚ)) :
    shoelaceSum (r.map encPoint) = some (shoelaceSumQ r) := by
  induction r with
  | nil => rfl
  | cons p t ih =>
    cases t with
    | nil => rfl
    | cons q t' =>
      simp only [List.map_cons] at ih ⊢
      rw [shoelaceSum, shoelaceSumQ]
      have hx : ∀ a : ℚ × ℚ, coordNum 0 (encPoint a) = some a.1 := fun _ => rfl
      have hy : ∀ a : ℚ × ℚ, coordNum 1 (encPoint a) = some a.2 := fun _ => rfl
      simp [hx, hy, ih]

theorem calculatePolygonArea_encRing (r : List (ℚ × ℚ)) :
    calculatePolygonArea (encRing r) = some (calculatePolygonAreaQ r) := by
  show calculatePolygonArea (.arr (r.map encPoint)) = _
  by_cases hlen : r.length < 3 <;>
    simp [calculatePolygonArea, calculatePolygonAreaQ, hlen, shoelaceSum_encPoint]

theorem sumPolygons_enc :
    ∀ (ps : List (List (List (ℚ × ℚ)))) (acc : ℚ),
      (∀ p ∈ ps, p ≠ []) →
      sumPolygons acc (ps.map encPolygon) =
        some (acc + (ps.map (fun p => calculatePolygonAreaQ p.headI)).sum)
  | [], acc, _ => by simp [sumPolygons]
  | ([] :: t), _, hps => absurd rfl (hps [] (by simp))
  | ((r0 :: rs) :: t), acc, hps => by
    rw [List.map_cons,
      show encPolygon (r0 :: rs) = .arr (encRing r0 :: rs.map encRing) from rfl,
      sumPolygons]
    rw [calculatePolygonArea_encRing r0]
    dsimp only
    rw [sumPolygons_enc t (acc + calculatePolygonAreaQ r0)
      (fun p hp => hps p (List.mem_cons_of_mem _ hp))]
    simp [List.headI, add_assoc]

/-- DataLoader.calculateApproximateArea on an encoded MultiPolygon is the sum
of the first rings' shoelace areas. -/
theorem calculateApproximateArea_encMultiPolygon
    (ps : List (List (List (ℚ × ℚ)))) (hps : ∀ p ∈ ps, p ≠ []) :
    calculateApproximateArea (encMultiPolygonGeom ps) =
      some ((ps.map (fun p => calculatePolygonAreaQ p.headI)).sum) := by
  rw [show calculateApproximateArea (encMultiPolygonGeom ps) =
      sumPolygons 0 (ps.map encPolygon) from rfl,
    sumPolygons_enc ps 0 hps, zero_add]

theorem applyOne_none {m : List (String × JValue)} {mp : String × String}
    (h : getL mp.1 m = none) : applyOne m mp = m := by
  unfold applyOne
  rw [h]

theorem foldl_applyOne_no_sources :
    ∀ (maps : List (String × String)) (m : List (String × JValue)),
      (∀ mp ∈ maps, getL mp.1 m = none) → maps.foldl applyOne m = m
  | [], _, _ => rfl
  | mp :: rest, m, h => by
    rw [List.foldl_cons, applyOne_none (h mp (List.mem_cons_self mp rest)),
      foldl_applyOne_no_sources rest m (fun x hx => h x (List.mem_cons_of_mem mp hx))]

theorem riskValueStep_none {key : String} {m : List (String × JValue)}
    (h : getL key m = none) : riskValueStep key m = m := by
  unfold riskValueStep
  rw [h]

theorem standardizeProperties_stamped (now : String) :
    standardizeProperties (stampProcessedAt now []) = [("processed_at", .str now)] := by
  rw [show stampProcessedAt now [] = [("processed_at", .str now)] from rfl]
  unfold standardizeProperties applyMappings
  rw [foldl_applyOne_no_sources propertyMappings _ (fun mp hmp => by fin_cases hmp <;> rfl),
    @riskValueStep_none "risk_level" [("processed_at", JValue.str now)] rfl,
    @riskValueStep_none "severity" [("processed_at", JValue.str now)] rfl]

/-- C9: normalizing a Feature whose geometry is a MultiPolygon (each polygon
having at least its outer ring) writes a calculated_area property equal to
the sum over the constituent polygons of the shoelace area of each polygon's
first (outer) ring. -/
theorem processFeature_multiPolygon_calculated_area
    (now : String) (ps : List (List (List (ℚ × ℚ)))) (hps : ∀ p ∈ ps, p ≠ []) :
    processFeature now (mkFeature (encMultiPolygonGeom ps)) =
      some (.obj (objSetL "properties"
        (.obj [("processed_at", .str now),
               ("calculated_area",
                 .num ((ps.map (fun p => calculatePolygonAreaQ p.headI)).sum))])
        [("type", .str "Feature"), ("geometry", encMultiPolygonGeom ps),
         ("properties", .obj [])])) ∧
    (objGet "properties" (.obj (objSetL "properties"
        (.obj [("processed_at", .str now),
               ("calculated_area",
                 .num ((ps.map (fun p => calculatePolygonAreaQ p.headI)).sum))])
        [("type", .str "Feature"), ("geometry", encMultiPolygonGeom ps),
         ("properties", .obj [])]))).bind (objGet "calculated_area") =
      some (.num ((ps.map (fun p => calculatePolygonAreaQ p.headI)).sum)) := by
  constructor
  · rw [show processFeature now (mkFeature (encMultiPolygonGeom ps)) =
        (match areaStep
            [("type", .str "Feature"), ("geometry", encMultiPolygonGeom ps),
             ("properties", .obj [])]
            (standardizeProperties (stampProcessedAt now [])) with
          | none => none
          | some psF => some (.obj (objSetL "properties" (.obj psF)
              [("type", .str "Feature"), ("geometry", encMultiPolygonGeom ps),
               ("properties", .obj [])]))) from rfl]
    rw [standardizeProperties_stamped now]
    rw [show areaStep
        [("type", .str "Feature"), ("geometry", encMultiPolygonGeom ps),
         ("properties", .obj [])]
        [("processed_at", .str now)] =
        (calculateApproximateArea (encMultiPolygonGeom ps)).map
          (fun a => objSetL "calculated_area" (.num a) [("processed_at", .str now)]) from rfl]
    rw [calculateApproximateArea_encMultiPolygon ps hps]
    rfl
  · show (getL "properties" (objSetL "properties"
        (.obj [("processed_at", .str now),
               ("calculated_area",
                 .num ((ps.map (fun p => calculatePolygonAreaQ p.headI)).sum))])
        [("type", .str "Feature"), ("geometry", encMultiPolygonGeom ps),
         ("properties", .obj [])])).bind (objGet "calculated_area") = _
    rw [lookup_objSetL_self]
    rfl

/-- C9 witness: two squares with outer-ring areas 4 and 1 give
calculated_area 5. -/
theorem processFeature_multiPolygon_calculated_area_witness :
    (∀ p ∈ [[[((0 : ℚ), (0 : ℚ)), (2, 0), (2, 2), (0, 2), (0, 0)]],
            [[((0 : ℚ), (0 : ℚ)), (1, 0), (1, 1), (0, 1), (0, 0)]]], p ≠ []) ∧
    (objGet "properties" (.obj (objSetL "properties"
        (.obj [("processed_at", .str "T0"), ("calculated_area", .num 5)])
        [("type", .str "Feature"),
         ("geometry", encMultiPolygonGeom
           [[[((0 : ℚ), (0 : ℚ)), (2, 0), (2, 2), (0, 2), (0, 0)]],
            [[((0 : ℚ), (0 : ℚ)), (1, 0), (1, 1), (0, 1), (0, 0)]]]),
         ("properties", .obj [])]))).bind (objGet "calculated_area") =
      some (.num 5) := by
  have hne : ∀ p ∈ [[[((0 : ℚ), (0 : ℚ)), (2, 0), (2, 2), (0, 2), (0, 0)]],
      [[((0 : ℚ), (0 : ℚ)), (1, 0), (1, 1), (0, 1), (0, 0)]]], p ≠ [] := by decide
  have h := (processFeature_multiPolygon_calculated_area "T0"
    [[[((0 : ℚ), (0 : ℚ)), (2, 0), (2, 2), (0, 2), (0, 0)]],
     [[((0 : ℚ), (0 : ℚ)), (1, 0), (1, 1), (0, 1), (0, 0)]]] hne).2
  have hsum : (([[[((0 : ℚ), (0 : ℚ)), (2, 0), (2, 2), (0, 2), (0, 0)]],
      [[((0 : ℚ), (0 : ℚ)), (1, 0), (1, 1), (0, 1), (0, 0)]]].map
        (fun p => calculatePolygonAreaQ p.headI)).sum) = 5 := by
    norm_num [calculatePolygonAreaQ, shoelaceSumQ, List.headI]
  refine ⟨hne, ?_⟩
  rw [hsum] at h
  exact h

/-- C7: isValidGeoJSON returns false exactly when the spec's rejection
conditions hold — the input is not an object, has no type field, has a type
outside the closed set of nine GeoJSON type strings, or is a
FeatureCollection without a features sequence — and returns true on every
other input; as a pure function its result is deterministic. -/
theorem isValidGeoJSON_false_iff (d : JValue) :
    isValidGeoJSON d = false ↔ validateRejectsSpec d := by
  cases d with
  | null => simp [isValidGeoJSON, validateRejectsSpec, jsTruthy, isObjectType]
  | bool b => simp [isValidGeoJSON, validateRejectsSpec, jsTruthy, isObjectType]
  | num q => simp [isValidGeoJSON, validateRejectsSpec, jsTruthy, isObjectType]
  | str s => simp [isValidGeoJSON, validateRejectsSpec, jsTruthy, isObjectType]
  | arr xs => simp [isValidGeoJSON, validateRejectsSpec, jsTruthy, isObjectType, objGet]
  | obj fields =>
    cases hty : getL "type" fields with
    | none =>
      simp [isValidGeoJSON, validateRejectsSpec, objGet, hty, jsTruthy, isObjectType]
    | some ty =>
      cases ty with
      | null =>
        simp [isValidGeoJSON, validateRejectsSpec, objGet, hty, jsTruthy, isObjectType]
      | bool b =>
        cases b <;>
          simp [isValidGeoJSON, validateRejectsSpec, objGet, hty, jsTruthy, isObjectType,
            typeIncluded]
      | num q =>
        by_cases hq : q = 0 <;>
          simp [isValidGeoJSON, validateRejectsSpec, objGet, hty, jsTruthy, isObjectType,
            typeIncluded, hq]
      | arr ys =>
        simp [isValidGeoJSON, validateRejectsSpec, objGet, hty, jsTruthy, isObjectType,
          typeIncluded]
      | obj gs =>
        simp [isValidGeoJSON, validateRejectsSpec, objGet, hty, jsTruthy, isObjectType,
          typeIncluded]
      | str t =>
        by_cases ht0 : t = ""
        · subst ht0
          simp [isValidGeoJSON, validateRejectsSpec, objGet, hty, jsTruthy, isObjectType,
            validTypes]
        · by_cases htv : t ∈ validTypes
          · have hcontains : validTypes.contains t = true := by
              simpa using htv
            by_cases htf : t = "FeatureCollection"
            · subst htf
              cases hfe : getL "features" fields with
              | none =>
                simp [isValidGeoJSON, validateRejectsSpec, objGet, hty, hfe, jsTruthy,
                  isObjectType, typeIncluded, hcontains, isFeatureCollectionType, validTypes]
              | some fv =>
                cases fv <;>
                  simp [isValidGeoJSON, validateRejectsSpec, objGet, hty, hfe, jsTruthy,
                    isObjectType, typeIncluded, hcontains, isFeatureCollectionType, validTypes]
            · simp [isValidGeoJSON, validateRejectsSpec, objGet, hty, jsTruthy, isObjectType,
                typeIncluded, hcontains, isFeatureCollectionType, ht0, htf, htv]
          · have hcontains : validTypes.contains t = false := by
              simpa using htv
            simp [isValidGeoJSON, validateRejectsSpec, objGet, hty, jsTruthy, isObjectType,
              typeIncluded, hcontains, ht0, htv]
            exact Or.inl fun t1 ht1 h => htv (h ▸ ht1)

/-- C7 witness: the refinement applied at a concrete rejected input — a bare
null document is invalid. -/
theorem isValidGeoJSON_false_iff_witness :
    isValidGeoJSON .null = false :=
  (isValidGeoJSON_false_iff .null).mpr trivial

end WildfiresMap
